import Mathlib

/-!
Verification of the fraud-data analysis program (confirmed_fraud.py).

The file shallowly embeds the program's components — the amount parser
clean_fraud_amount, the loader load_and_clean_data, the aggregator
aggregate_fraud_data, the axis formatter format_amount and the click
handler on_bar_click — as executable Lean definitions, with monetary
values modelled as rationals, and proves the specification's claims
about them.
-/

namespace ConfirmedFraud

/-- Python str.replace with a one-character pattern replaces every
occurrence of that character by the replacement; embedded as a
per-character flatMap over the character list. -/
def pyReplaceChar (s : List Char) (old : Char) (new : List Char) : List Char :=
  s.flatMap (fun c => if c = old then new else [c])

/-- Whitespace characters stripped by Python float() around the literal. -/
def isPyWhitespace (c : Char) : Bool :=
  c == ' ' || c == '\t' || c == '\n' || c == '\r' || c == '\x0b' || c == '\x0c'

/-- Surrounding whitespace removal, as Python float() performs on its input. -/
def stripChars (cs : List Char) : List Char :=
  ((cs.dropWhile isPyWhitespace).reverse.dropWhile isPyWhitespace).reverse

/-- Value of a list of decimal digit characters read left to right. -/
def digitsToNat (l : List Char) : Nat :=
  l.foldl (fun a c => 10 * a + (c.toNat - 48)) 0

/-- Parts of a parsed Python float literal: sign, mantissa digits read as
a natural number, length of the fractional part, and signed exponent. -/
structure FloatLit where
  neg : Bool
  mant : Nat
  fracLen : Nat
  expNeg : Bool
  expVal : Nat
deriving DecidableEq, Repr

/-- Exponent part of a Python float literal after its sign: digits only,
nothing trailing. -/
def pyExpDigits (expNeg : Bool) (t : List Char) : Option (Bool × Nat) :=
  let ed := t.takeWhile Char.isDigit
  let rest := t.dropWhile Char.isDigit
  if ed.isEmpty || !rest.isEmpty then none
  else some (expNeg, digitsToNat ed)

/-- Exponent part of a Python float literal, with its optional sign. -/
def pyExpParse (t : List Char) : Option (Bool × Nat) :=
  match t with
  | '-' :: t1 => pyExpDigits true t1
  | '+' :: t1 => pyExpDigits false t1
  | t1 => pyExpDigits false t1

/-- Body of a Python float literal after the sign: integer digits, an
optional fractional part, an optional exponent; at least one digit must
be present in the mantissa. -/
def pyMantExp (neg : Bool) (cs : List Char) : Option FloatLit :=
  let ip := cs.takeWhile Char.isDigit
  let cs1 := cs.dropWhile Char.isDigit
  let fp := match cs1 with
    | '.' :: t => t.takeWhile Char.isDigit
    | _ => []
  let cs2 := match cs1 with
    | '.' :: t => t.dropWhile Char.isDigit
    | _ => cs1
  if ip.isEmpty && fp.isEmpty then none
  else
    let m := digitsToNat (ip ++ fp)
    match cs2 with
    | [] => some ⟨neg, m, fp.length, false, 0⟩
    | 'e' :: t => (pyExpParse t).map (fun p => ⟨neg, m, fp.length, p.1, p.2⟩)
    | 'E' :: t => (pyExpParse t).map (fun p => ⟨neg, m, fp.length, p.1, p.2⟩)
    | _ => none

/-- Parse of the decimal fragment of the Python float() grammar: optional
surrounding whitespace, optional sign, digits with optional fractional
part and optional exponent.  The special spellings inf and nan fall
outside the rational model and underscored literals are omitted (neither
occurs in this program's data).  Returns none exactly where float()
raises ValueError on this fragment. -/
def pyParseLit (s : List Char) : Option FloatLit :=
  match stripChars s with
  | '-' :: t => pyMantExp true t
  | '+' :: t => pyMantExp false t
  | t => pyMantExp false t

/-- Rational value denoted by a parsed float literal. -/
def FloatLit.val (f : FloatLit) : ℚ :=
  (if f.neg then (-1 : ℚ) else 1) * ((f.mant : ℚ) / (10 : ℚ) ^ f.fracLen)
    * (10 : ℚ) ^ ((if f.expNeg then (-1 : ℤ) else 1) * (f.expVal : ℤ))

/-- Model of Python float() over rationals. -/
def pyFloat (s : List Char) : Option ℚ :=
  (pyParseLit s).map FloatLit.val

/-- Embedding of clean_fraud_amount: remove dollar signs and commas,
replace dashes by the digit zero, convert with float() and scale by
1,000,000. -/
def clean_fraud_amount (amount : String) : Option ℚ :=
  (pyFloat (pyReplaceChar (pyReplaceChar (pyReplaceChar
      amount.data '$' []) ',' []) '-' ['0'])).map (fun q => q * 1000000)

example : pyParseLit (pyReplaceChar (pyReplaceChar (pyReplaceChar
    "-".data '$' []) ',' []) '-' ['0']) = some ⟨false, 0, 0, false, 0⟩ := by decide

example : clean_fraud_amount "-" = some 0 := by
  have h : pyParseLit (pyReplaceChar (pyReplaceChar (pyReplaceChar
      "-".data '$' []) ',' []) '-' ['0']) = some ⟨false, 0, 0, false, 0⟩ := by decide
  simp [clean_fraud_amount, pyFloat, h, FloatLit.val]

example : clean_fraud_amount "$1,500,000" = some 1500000000000 := by
  have h : pyParseLit (pyReplaceChar (pyReplaceChar (pyReplaceChar
      "$1,500,000".data '$' []) ',' []) '-' ['0'])
      = some ⟨false, 1500000, 0, false, 0⟩ := by decide
  simp [clean_fraud_amount, pyFloat, h, FloatLit.val]
  norm_num

example : clean_fraud_amount "2.5" = some 2500000 := by
  have h : pyParseLit (pyReplaceChar (pyReplaceChar (pyReplaceChar
      "2.5".data '$' []) ',' []) '-' ['0'])
      = some ⟨false, 25, 1, false, 0⟩ := by decide
  simp [clean_fraud_amount, pyFloat, h, FloatLit.val]
  norm_num

example : clean_fraud_amount "abc" = none := by
  have h : pyParseLit (pyReplaceChar (pyReplaceChar (pyReplaceChar
      "abc".data '$' []) ',' []) '-' ['0']) = none := by decide
  simp [clean_fraud_amount, pyFloat, h]

/-- Cleaned record: one row of the cleaned table, with the Agency and
Program or Activity labels and the cleaned Confirmed Fraud amount. -/
structure Row where
  agency : String
  program : String
  amount : ℚ
deriving DecidableEq, Repr

/-- Total of the Confirmed Fraud amounts over a list of rows. -/
def sumAmt (rows : List Row) : ℚ := (rows.map Row.amount).sum

/-- First groupby of aggregate_fraud_data: sum the Confirmed Fraud
column per Agency and sort by descending total.  Group keys are the
distinct agency labels; pandas enumerates them in sorted order, which
the final descending sort by value makes irrelevant, so the embedding
takes them in order of occurrence via dedup. -/
def fraud_by_agency (rows : List Row) : List (String × ℚ) :=
  (((rows.map Row.agency).dedup).map
      (fun a => (a, sumAmt (rows.filter (fun r => r.agency == a))))).mergeSort
    (fun p q => decide (q.2 ≤ p.2))

/-- Second groupby of aggregate_fraud_data: sum the Confirmed Fraud
column per (Agency, Program or Activity) pair; no sort is applied and
the specification treats the result as unordered. -/
def fraud_by_program (rows : List Row) : List ((String × String) × ℚ) :=
  ((rows.map (fun r => (r.agency, r.program))).dedup).map
    (fun k => (k, sumAmt (rows.filter (fun r => (r.agency, r.program) == k))))

/-- Embedding of aggregate_fraud_data: the pair of the two aggregates. -/
def aggregate_fraud_data (rows : List Row) :
    List (String × ℚ) × List ((String × String) × ℚ) :=
  (fraud_by_agency rows, fraud_by_program rows)

/-- Raw record: one row of the CSV with the amount still a string. -/
structure RawRow where
  agency : String
  program : String
  rawAmount : String

/-- Errors surfaced by load_and_clean_data: the re-raised
FileNotFoundError, the ValueError for an empty CSV, and the ValueError
that float() raises on an unparseable amount (uncaught in the source,
so it propagates). -/
inductive LoadError where
  | fileNotFound (msg : String)
  | valueError (msg : String)
deriving DecidableEq, Repr

/-- Clean every row of a table, failing if any amount fails to parse. -/
def cleanRows : List RawRow → Option (List Row)
  | [] => some []
  | r :: rest => do
    let q ← clean_fraud_amount r.rawAmount
    let rs ← cleanRows rest
    pure (⟨r.agency, r.program, q⟩ :: rs)

/-- Embedding of load_and_clean_data.  The filesystem is modelled as a
map from paths to file contents, where none means the file does not
exist and some none means a file pandas rejects as empty; header
whitespace trimming is below the row model.  A missing file is reported
with the message built in the source's FileNotFoundError handler. -/
def load_and_clean_data (fs : String → Option (Option (List RawRow)))
    (file_path : String) : Except LoadError (List Row) :=
  match fs file_path with
  | none => .error (.fileNotFound
      ("Could not find confirmed fraud data at " ++ file_path))
  | some none => .error (.valueError "The CSV file is empty")
  | some (some table) =>
    match cleanRows table with
    | none => .error (.valueError "could not convert string to float")
    | some rows => .ok rows

/-- Constant MILLION of FraudVisualization. -/
def MILLION : ℚ := 1000000

/-- Rounding to the nearest integer with ties to even, as Python's
fixed-point string formatting performs on the value being rendered. -/
def roundHalfEven (q : ℚ) : ℤ :=
  if q - ⌊q⌋ < 1/2 then ⌊q⌋
  else if 1/2 < q - ⌊q⌋ then ⌊q⌋ + 1
  else if ⌊q⌋ % 2 = 0 then ⌊q⌋ else ⌊q⌋ + 1

/-- Rendering of a nonnegative rational with no decimal places, as the
format spec .0f produces. -/
def fmtFixed0 (q : ℚ) : String := toString (roundHalfEven q)

/-- Rendering of a nonnegative rational with one decimal place, as the
format spec .1f produces. -/
def fmtFixed1 (q : ℚ) : String :=
  toString (roundHalfEven (q * 10) / 10) ++ "." ++ toString (roundHalfEven (q * 10) % 10)

/-- Embedding of FraudVisualization.format_amount: billions with one
decimal place at or above 1e9, otherwise millions with none. -/
def format_amount (x : ℚ) : String :=
  if 1000000000 ≤ x then "$" ++ fmtFixed1 (x / 1000000000) ++ "B"
  else "$" ++ fmtFixed0 (x / MILLION) ++ "M"

/-- Rendered bar of the overview chart: its rectangle in event
coordinates, used by the hit test that matplotlib's contains performs. -/
structure Bar where
  x0 : ℚ
  x1 : ℚ
  y0 : ℚ
  y1 : ℚ
deriving DecidableEq, Repr

/-- Axes of the overview chart: its bar patches and its y tick labels. -/
structure Axes where
  patches : List Bar
  yticklabels : List String
deriving DecidableEq, Repr

/-- Pointer-press event: its coordinates and the axes it landed in, none
when the press is outside the axes entirely. -/
structure ClickEvent where
  x : ℚ
  y : ℚ
  inaxes : Option Axes
deriving DecidableEq, Repr

/-- Hit test of a bar against the event coordinates. -/
def barContains (b : Bar) (e : ClickEvent) : Bool :=
  decide (b.x0 ≤ e.x) && decide (e.x ≤ b.x1)
    && decide (b.y0 ≤ e.y) && decide (e.y ≤ b.y1)

/-- Mutable state of the FraudVisualization controller that on_bar_click
can touch: the current detail figure with the agency it shows, and a
counter giving fresh figure identities. -/
structure VizState where
  program_figure : Option Nat
  detail_agency : Option String
  next_fig : Nat
deriving DecidableEq, Repr

/-- Embedding of plot_agency_programs: close any previous detail figure
and create a fresh one showing the selected agency. -/
def plot_agency_programs (s : VizState) (agency : String) : VizState :=
  { program_figure := some s.next_fig
    detail_agency := some agency
    next_fig := s.next_fig + 1 }

/-- Embedding of on_bar_click: return unchanged when the press is
outside the axes; otherwise scan the patches in rendering order and, at
the first bar containing the event, read the agency off the y tick label
at the same index and draw its detail chart. -/
def on_bar_click (s : VizState) (e : ClickEvent) : VizState :=
  match e.inaxes with
  | none => s
  | some ax =>
    match ax.patches.findIdx? (fun bar => barContains bar e) with
    | none => s
    | some i => plot_agency_programs s (ax.yticklabels.getD i "")

lemma pyReplaceChar_cons (a : Char) (t : List Char) (old : Char) (new : List Char) :
    pyReplaceChar (a :: t) old new
      = (if a = old then new else [a]) ++ pyReplaceChar t old new := by
  simp [pyReplaceChar]

lemma beq_false_of_isDigit {c w : Char} (h : c.isDigit = true)
    (hw : w.isDigit = false) : (c == w) = false :=
  beq_eq_false_iff_ne.2 (fun e => by rw [e] at h; rw [h] at hw; cases hw)

lemma isPyWhitespace_eq_false_of_isDigit {c : Char} (h : c.isDigit = true) :
    isPyWhitespace c = false := by
  simp [isPyWhitespace,
    beq_false_of_isDigit h (by decide : (' ').isDigit = false),
    beq_false_of_isDigit h (by decide : ('\t').isDigit = false),
    beq_false_of_isDigit h (by decide : ('\n').isDigit = false),
    beq_false_of_isDigit h (by decide : ('\r').isDigit = false),
    beq_false_of_isDigit h (by decide : ('\x0b').isDigit = false),
    beq_false_of_isDigit h (by decide : ('\x0c').isDigit = false)]

lemma dropWhile_eq_self_of_forall {p : Char → Bool} {l : List Char}
    (h : ∀ c ∈ l, p c = false) : l.dropWhile p = l := by
  cases l with
  | nil => rfl
  | cons a t => simp [List.dropWhile_cons, h a (List.mem_cons_self a t)]

lemma stripChars_eq_self {l : List Char} (h : ∀ c ∈ l, isPyWhitespace c = false) :
    stripChars l = l := by
  rw [stripChars, dropWhile_eq_self_of_forall h,
    dropWhile_eq_self_of_forall (fun c hc => h c (List.mem_reverse.1 hc)),
    List.reverse_reverse]

lemma takeWhile_eq_self_of_forall {p : Char → Bool} {l : List Char}
    (h : ∀ c ∈ l, p c = true) : l.takeWhile p = l := by
  induction l with
  | nil => rfl
  | cons a t ih =>
    simp [List.takeWhile_cons, h a (List.mem_cons_self a t),
      ih (fun c hc => h c (List.mem_cons_of_mem a hc))]

lemma dropWhile_eq_nil_of_forall {p : Char → Bool} {l : List Char}
    (h : ∀ c ∈ l, p c = true) : l.dropWhile p = [] := by
  induction l with
  | nil => rfl
  | cons a t ih =>
    simp [List.dropWhile_cons, h a (List.mem_cons_self a t),
      ih (fun c hc => h c (List.mem_cons_of_mem a hc))]

lemma pyReplaceChar_empty_eq_filter (l : List Char) (old : Char) :
    pyReplaceChar l old [] = l.filter (fun c => !(c == old)) := by
  induction l with
  | nil => rfl
  | cons a t ih =>
    rw [pyReplaceChar_cons, ih, List.filter_cons]
    by_cases h : a = old
    · simp [h]
    · simp [h, beq_eq_false_iff_ne.2 h]

lemma pyReplaceChar_eq_self {l : List Char} {old : Char} (new : List Char)
    (h : ∀ c ∈ l, c ≠ old) : pyReplaceChar l old new = l := by
  induction l with
  | nil => rfl
  | cons a t ih =>
    rw [pyReplaceChar_cons, if_neg (h a (List.mem_cons_self a t)),
      ih (fun c hc => h c (List.mem_cons_of_mem a hc)), List.singleton_append]

lemma dash_not_mem_replace (l : List Char) : ('-') ∉ pyReplaceChar l '-' ['0'] := by
  intro hx
  rw [pyReplaceChar] at hx
  rcases List.mem_flatMap.1 hx with ⟨c, hc, hmem⟩
  by_cases h : c = '-'
  · rw [if_pos h] at hmem
    simp at hmem
  · rw [if_neg h] at hmem
    exact h (List.mem_singleton.1 hmem).symm

lemma mem_of_mem_stripChars {x : Char} {l : List Char} (hx : x ∈ stripChars l) :
    x ∈ l := by
  rw [stripChars] at hx
  exact (List.dropWhile_sublist _).subset
    (List.mem_reverse.1
      ((List.dropWhile_sublist _).subset (List.mem_reverse.1 hx)))

lemma pyMantExp_neg {neg : Bool} {cs : List Char} {f : FloatLit}
    (h : pyMantExp neg cs = some f) : f.neg = neg := by
  simp only [pyMantExp] at h
  split at h
  · cases h
  · split at h
    · cases h
      rfl
    · obtain ⟨p, hp, hf⟩ := Option.map_eq_some'.1 h
      rw [← hf]
    · obtain ⟨p, hp, hf⟩ := Option.map_eq_some'.1 h
      rw [← hf]
    · cases h

lemma pyParseLit_neg_false {l : List Char} (hl : ('-') ∉ l) {f : FloatLit}
    (h : pyParseLit l = some f) : f.neg = false := by
  rw [pyParseLit] at h
  split at h
  next t heq =>
    exact absurd (mem_of_mem_stripChars
      (by rw [heq]; exact List.mem_cons_self '-' t)) hl
  next t heq => exact pyMantExp_neg h
  next t h1 h2 => exact pyMantExp_neg h

lemma val_nonneg_of_not_neg {f : FloatLit} (h : f.neg = false) : 0 ≤ f.val := by
  have h1 : (0 : ℚ) ≤ (f.mant : ℚ) / (10 : ℚ) ^ f.fracLen :=
    div_nonneg (Nat.cast_nonneg _) (pow_nonneg (by norm_num) _)
  have h2 : (0 : ℚ) ≤ (10 : ℚ) ^ ((if f.expNeg then (-1 : ℤ) else 1) * (f.expVal : ℤ)) :=
    zpow_nonneg (by norm_num) _
  simpa [FloatLit.val, h] using mul_nonneg h1 h2

/-- Claim C4: every raw amount string on which clean_fraud_amount
returns a value yields a non-negative cleaned amount, because every dash
has been replaced by a zero digit before the sign could be parsed. -/
theorem claim_C4_nonneg (s : String) (q : ℚ)
    (h : clean_fraud_amount s = some q) : 0 ≤ q := by
  rw [clean_fraud_amount] at h
  obtain ⟨v, hv, hq⟩ := Option.map_eq_some'.1 h
  rw [pyFloat] at hv
  obtain ⟨f, hf, hval⟩ := Option.map_eq_some'.1 hv
  have hneg : f.neg = false := pyParseLit_neg_false (dash_not_mem_replace _) hf
  have hvn : 0 ≤ f.val := val_nonneg_of_not_neg hneg
  rw [← hq, ← hval]
  exact mul_nonneg hvn (by norm_num)

/-- Witness for claim C4 at the scenario input, whose cleaned amount is
1.5e12. -/
theorem claim_C4_nonneg_witness : (0 : ℚ) ≤ 1500000000000 := by
  apply claim_C4_nonneg "$1,500,000"
  have h : pyParseLit (pyReplaceChar (pyReplaceChar (pyReplaceChar
      "$1,500,000".data '$' []) ',' []) '-' ['0'])
      = some ⟨false, 1500000, 0, false, 0⟩ := by decide
  simp [clean_fraud_amount, pyFloat, h, FloatLit.val]
  norm_num

lemma pyMantExp_digits {l : List Char} (hne : l ≠ [])
    (hd : ∀ c ∈ l, c.isDigit = true) (neg : Bool) :
    pyMantExp neg l = some ⟨neg, digitsToNat l, 0, false, 0⟩ := by
  have htake : l.takeWhile Char.isDigit = l := takeWhile_eq_self_of_forall hd
  have hdrop : l.dropWhile Char.isDigit = [] := dropWhile_eq_nil_of_forall hd
  obtain ⟨a, t, rfl⟩ := List.exists_cons_of_ne_nil hne
  simp [pyMantExp, htake, hdrop]

lemma pyParseLit_digits {l : List Char} (hne : l ≠ [])
    (hd : ∀ c ∈ l, c.isDigit = true) :
    pyParseLit l = some ⟨false, digitsToNat l, 0, false, 0⟩ := by
  have hstrip : stripChars l = l :=
    stripChars_eq_self (fun c hc => isPyWhitespace_eq_false_of_isDigit (hd c hc))
  rw [pyParseLit]
  split
  next t heq =>
    rw [hstrip] at heq
    have : ('-').isDigit = true := hd '-' (by rw [heq]; exact List.mem_cons_self '-' t)
    exact absurd this (by decide)
  next t heq =>
    rw [hstrip] at heq
    have : ('+').isDigit = true := hd '+' (by rw [heq]; exact List.mem_cons_self '+' t)
    exact absurd this (by decide)
  next t h1 h2 =>
    rw [hstrip]
    exact pyMantExp_digits hne hd false

/-- Claim C2: every raw amount string made only of a currency symbol,
thousands separators and digits cleans to the numeric value of its
digits times 1,000,000. -/
theorem claim_C2_currency_digits (s : String)
    (h1 : ∀ c ∈ s.data, c = '$' ∨ c = ',' ∨ c.isDigit = true)
    (h2 : ∃ c ∈ s.data, c.isDigit = true) :
    clean_fraud_amount s
      = some ((digitsToNat (s.data.filter Char.isDigit) : ℚ) * 1000000) := by
  have hrepl : pyReplaceChar (pyReplaceChar (pyReplaceChar
      s.data '$' []) ',' []) '-' ['0'] = s.data.filter Char.isDigit := by
    rw [pyReplaceChar_empty_eq_filter, pyReplaceChar_empty_eq_filter,
      List.filter_filter]
    have hcong : s.data.filter (fun a => !(a == ',') && !(a == '$'))
        = s.data.filter Char.isDigit := by
      apply List.filter_congr
      intro c hc
      rcases h1 c hc with rfl | rfl | hdig
      · decide
      · decide
      · rw [beq_false_of_isDigit hdig (by decide),
          beq_false_of_isDigit hdig (by decide), hdig]
        rfl
    rw [hcong]
    refine pyReplaceChar_eq_self ['0'] (fun c hc e => ?_)
    have hcd := (List.mem_filter.1 hc).2
    rw [e] at hcd
    exact absurd hcd (by decide)
  obtain ⟨c, hc, hcd⟩ := h2
  have hne : s.data.filter Char.isDigit ≠ [] :=
    List.ne_nil_of_mem (List.mem_filter.2 ⟨hc, hcd⟩)
  have hdig : ∀ x ∈ s.data.filter Char.isDigit, x.isDigit = true :=
    fun x hx => (List.mem_filter.1 hx).2
  rw [clean_fraud_amount, hrepl, pyFloat, pyParseLit_digits hne hdig]
  simp [FloatLit.val]

/-- Witness for claim C2 at the scenario input with a dollar sign and
two thousands separators. -/
theorem claim_C2_currency_digits_witness :
    clean_fraud_amount "$1,500,000"
      = some ((digitsToNat ("$1,500,000".data.filter Char.isDigit) : ℚ) * 1000000) :=
  claim_C2_currency_digits "$1,500,000" (by decide) (by decide)

lemma sum_map_ite_of_not_mem {κ : Type} [DecidableEq κ] (x : κ) (c : ℚ)
    (ks : List κ) (hx : x ∉ ks) :
    (ks.map (fun k => if x = k then c else 0)).sum = 0 := by
  induction ks with
  | nil => simp
  | cons k ks ih =>
    simp only [List.mem_cons, not_or] at hx
    simp [ih hx.2, if_neg hx.1]

lemma sum_map_ite_of_mem {κ : Type} [DecidableEq κ] (x : κ) (c : ℚ) :
    ∀ ks : List κ, ks.Nodup → x ∈ ks →
      (ks.map (fun k => if x = k then c else 0)).sum = c := by
  intro ks
  induction ks with
  | nil => intro _ hx; cases hx
  | cons k ks ih =>
    intro hnd hx
    rcases List.mem_cons.1 hx with rfl | hx2
    · have hnot : x ∉ ks := (List.nodup_cons.1 hnd).1
      simp [sum_map_ite_of_not_mem x c ks hnot]
    · have hne : x ≠ k := fun e => ((List.nodup_cons.1 hnd).1 (e ▸ hx2)).elim
      simp [hne, ih (List.nodup_cons.1 hnd).2 hx2]

lemma sum_map_add_distrib {κ : Type} (l : List κ) (u v : κ → ℚ) :
    (l.map (fun k => u k + v k)).sum = (l.map u).sum + (l.map v).sum := by
  induction l with
  | nil => simp
  | cons k l ih => simp [ih]; ring

/-- Sum of a grouped aggregate over a selected set of group keys: when
the keys are duplicate-free and cover every row, summing the per-key
group totals over the keys selected by g equals summing the amounts of
the rows selected by g directly. -/
lemma sum_group {κ : Type} [BEq κ] [LawfulBEq κ] [DecidableEq κ] (f : Row → κ) (g : κ → Bool)
    (ks : List κ) (hnd : ks.Nodup) :
    ∀ rows : List Row, (∀ r ∈ rows, f r ∈ ks) →
      ((ks.filter g).map (fun k => sumAmt (rows.filter (fun r => f r == k)))).sum
        = sumAmt (rows.filter (fun r => g (f r)))
  | [] => by intro _; simp [sumAmt]
  | r :: rest => by
    intro hmem
    have hr : f r ∈ ks := hmem r (List.mem_cons_self r rest)
    have ih := sum_group f g ks hnd rest (fun x hx => hmem x (List.mem_cons_of_mem r hx))
    have hstep : ∀ k : κ,
        sumAmt ((r :: rest).filter (fun x => f x == k))
          = (if f r = k then r.amount else 0)
            + sumAmt (rest.filter (fun x => f x == k)) := by
      intro k
      by_cases hk : f r = k
      · simp [List.filter_cons, hk, sumAmt]
      · simp [List.filter_cons, beq_eq_false_iff_ne.2 hk, hk, sumAmt]
    have hrw :
        ((ks.filter g).map (fun k => sumAmt ((r :: rest).filter (fun x => f x == k))))
          = (ks.filter g).map (fun k =>
              (if f r = k then r.amount else 0)
                + sumAmt (rest.filter (fun x => f x == k))) :=
      List.map_congr_left (fun k _ => hstep k)
    rw [hrw, sum_map_add_distrib, ih]
    by_cases hg : g (f r)
    · have hmemf : f r ∈ ks.filter g := List.mem_filter.2 ⟨hr, hg⟩
      rw [sum_map_ite_of_mem (f r) r.amount (ks.filter g) (hnd.filter g) hmemf]
      simp [List.filter_cons, hg, sumAmt]
    · have hnotf : f r ∉ ks.filter g := fun hin => hg (List.mem_filter.1 hin).2
      rw [sum_map_ite_of_not_mem (f r) r.amount (ks.filter g) hnotf]
      simp [List.filter_cons, Bool.eq_false_iff.2 hg, sumAmt]

/-- Claim C1: the sum of the totals in the category aggregate equals the
sum of the cleaned Confirmed Fraud amounts over all rows; the cleaned
table has no null category keys in this model, so no rows are dropped. -/
theorem claim_C1_conservation (rows : List Row) :
    (((aggregate_fraud_data rows).1).map Prod.snd).sum = sumAmt rows := by
  have hperm :
      List.Perm (((aggregate_fraud_data rows).1).map Prod.snd)
        ((((rows.map Row.agency).dedup).map
            (fun a => (a, sumAmt (rows.filter (fun r => r.agency == a))))).map Prod.snd) :=
    (List.mergeSort_perm _ _).map Prod.snd
  rw [hperm.sum_eq, List.map_map]
  have hcov : ∀ r ∈ rows, r.agency ∈ (rows.map Row.agency).dedup :=
    fun r hr => List.mem_dedup.2 (List.mem_map_of_mem Row.agency hr)
  have h := sum_group Row.agency (fun _ => true)
    ((rows.map Row.agency).dedup) (List.nodup_dedup _) rows hcov
  simpa [List.filter_true, Function.comp_def] using h

lemma agency_entry_eq {rows : List Row} {a : String} {t : ℚ}
    (h : (a, t) ∈ fraud_by_agency rows) :
    t = sumAmt (rows.filter (fun r => r.agency == a)) := by
  have hmem : (a, t) ∈ ((rows.map Row.agency).dedup).map
      (fun x => (x, sumAmt (rows.filter (fun r => r.agency == x)))) :=
    (List.mergeSort_perm _ _).subset h
  obtain ⟨x, hx, hxe⟩ := List.mem_map.1 hmem
  have hxa : x = a := congrArg Prod.fst hxe
  subst hxa
  exact (congrArg Prod.snd hxe).symm

lemma agency_mem_entries (rows : List Row) {a : String}
    (ha : a ∈ rows.map Row.agency) :
    (a, sumAmt (rows.filter (fun r => r.agency == a))) ∈ fraud_by_agency rows :=
  ((List.mergeSort_perm _ _).mem_iff).2
    (List.mem_map_of_mem _ (List.mem_dedup.2 ha))

lemma program_filter_sum (rows : List Row) (a : String) :
    (((fraud_by_program rows).filter (fun e => e.1.1 == a)).map Prod.snd).sum
      = sumAmt (rows.filter (fun r => r.agency == a)) := by
  have hcov : ∀ r ∈ rows, (r.agency, r.program)
      ∈ (rows.map (fun r => (r.agency, r.program))).dedup :=
    fun r hr => List.mem_dedup.2 (List.mem_map_of_mem _ hr)
  have h2 := sum_group (fun r => (r.agency, r.program)) (fun k => k.1 == a)
    ((rows.map (fun r => (r.agency, r.program))).dedup) (List.nodup_dedup _) rows hcov
  rw [fraud_by_program, List.filter_map, List.map_map]
  simpa [Function.comp_def] using h2

/-- Claim C3: for every category label present in the cleaned table, the
category aggregate of aggregate_fraud_data holds exactly one total for
it, and the totals of the category-subcategory aggregate entries whose
category equals that label sum to it. -/
theorem claim_C3_category_partition (rows : List Row) (a : String)
    (ha : a ∈ rows.map Row.agency) :
    ∃ t, (a, t) ∈ (aggregate_fraud_data rows).1 ∧
      ((((aggregate_fraud_data rows).2).filter
          (fun e => e.1.1 == a)).map Prod.snd).sum = t ∧
      ∀ t2, (a, t2) ∈ (aggregate_fraud_data rows).1 → t2 = t := by
  refine ⟨sumAmt (rows.filter (fun r => r.agency == a)),
    agency_mem_entries rows ha, program_filter_sum rows a,
    fun t2 h2 => agency_entry_eq h2⟩

/-- Witness rows for claim C3: two agencies, one with two programs. -/
def wrows : List Row := [⟨"A", "P1", 2⟩, ⟨"A", "P2", 3⟩, ⟨"B", "Q", 1⟩]

/-- Witness for claim C3 on wrows at agency A. -/
theorem claim_C3_category_partition_witness :
    ∃ t, (("A" : String), t) ∈ (aggregate_fraud_data wrows).1 ∧
      ((((aggregate_fraud_data wrows).2).filter
          (fun e => e.1.1 == "A")).map Prod.snd).sum = t ∧
      ∀ t2, (("A" : String), t2) ∈ (aggregate_fraud_data wrows).1 → t2 = t :=
  claim_C3_category_partition wrows "A" (by decide)

/-- Claim C6: parsing the standalone placeholder dash string, which has
no digits, with clean_fraud_amount yields exactly 0. -/
theorem claim_C6_dash_is_zero : clean_fraud_amount "-" = some 0 := by
  have h : pyParseLit (pyReplaceChar (pyReplaceChar (pyReplaceChar
      "-".data '$' []) ',' []) '-' ['0']) = some ⟨false, 0, 0, false, 0⟩ := by decide
  simp [clean_fraud_amount, pyFloat, h, FloatLit.val]

/-- Claim C10: clean_fraud_amount replaces every dash anywhere in the
input with the digit zero, so the negative-formatted input -1,500,000
parses successfully to the positive value 1500000 times 1,000,000
instead of raising or returning a negative amount. -/
theorem claim_C10_dash_replaced_everywhere :
    clean_fraud_amount "-1,500,000" = some (1500000 * 1000000) ∧
      (0 : ℚ) < 1500000 * 1000000 := by
  have h : pyParseLit (pyReplaceChar (pyReplaceChar (pyReplaceChar
      "-1,500,000".data '$' []) ',' []) '-' ['0'])
      = some ⟨false, 1500000, 0, false, 0⟩ := by decide
  constructor
  · simp [clean_fraud_amount, pyFloat, h, FloatLit.val]
  · norm_num

/-- Claim C7: for every source location that does not exist,
load_and_clean_data fails with the FileNotFoundError whose message
contains the attempted path. -/
theorem claim_C7_not_found (fs : String → Option (Option (List RawRow)))
    (file_path : String) (h : fs file_path = none) :
    ∃ pre post, load_and_clean_data fs file_path
      = .error (.fileNotFound (pre ++ file_path ++ post)) := by
  refine ⟨"Could not find confirmed fraud data at ", "", ?_⟩
  simp [load_and_clean_data, h]

/-- Witness for claim C7 at a concrete missing path on an empty
filesystem. -/
theorem claim_C7_not_found_witness :
    ∃ pre post, load_and_clean_data (fun _ => none) "data/gov_fraud_data.csv"
      = .error (.fileNotFound (pre ++ "data/gov_fraud_data.csv" ++ post)) :=
  claim_C7_not_found (fun _ => none) "data/gov_fraud_data.csv" rfl

/-- Claim C8: for every non-negative value, format_amount renders values
at or above 1e9 as billions with one decimal place and a B suffix by
dividing by 1e9, and otherwise as millions with no decimal places and an
M suffix by dividing by 1e6. -/
theorem claim_C8_format_amount (x : ℚ) (hx : 0 ≤ x) :
    (1000000000 ≤ x → format_amount x = "$" ++ fmtFixed1 (x / 1000000000) ++ "B") ∧
      (x < 1000000000 → format_amount x = "$" ++ fmtFixed0 (x / 1000000) ++ "M") := by
  constructor
  · intro h
    simp [format_amount, h]
  · intro h
    simp [format_amount, MILLION, not_le.2 h]

/-- Witness for claim C8 at 2.5e9, which renders as billions. -/
theorem claim_C8_format_amount_witness :
    format_amount 2500000000
      = "$" ++ fmtFixed1 ((2500000000 : ℚ) / 1000000000) ++ "B" :=
  (claim_C8_format_amount 2500000000 (by norm_num)).1 (by norm_num)

/-- Claim C9: a pointer press whose coordinates are outside all rendered
bars, including outside the axes entirely, leaves the controller state
unchanged: no detail chart is created or replaced. -/
theorem claim_C9_click_outside_noop (s : VizState) (e : ClickEvent)
    (h : e.inaxes = none ∨
      ∀ ax, e.inaxes = some ax → ∀ bar ∈ ax.patches, barContains bar e = false) :
    on_bar_click s e = s := by
  rcases h with h | h
  · simp [on_bar_click, h]
  · cases he : e.inaxes with
    | none => simp [on_bar_click, he]
    | some ax =>
      have hnone : ax.patches.findIdx? (fun bar => barContains bar e) = none :=
        List.findIdx?_eq_none_iff.2 (fun bar hb => h ax he bar hb)
      simp [on_bar_click, he, hnone]

/-- Witness for claim C9: a press inside the axes but outside the only
bar changes nothing. -/
theorem claim_C9_click_outside_noop_witness :
    on_bar_click ⟨none, none, 0⟩ ⟨5, 5, some ⟨[⟨0, 1, 0, 1⟩], ["A"]⟩⟩
      = ⟨none, none, 0⟩ :=
  claim_C9_click_outside_noop ⟨none, none, 0⟩ ⟨5, 5, some ⟨[⟨0, 1, 0, 1⟩], ["A"]⟩⟩
    (Or.inr (fun ax hax bar hb => by
      cases hax
      simp only [List.mem_singleton] at hb
      subst hb
      decide))

/-- Claim C5: the category aggregate produced by aggregate_fraud_data is
sorted by non-increasing total. -/
theorem claim_C5_sorted_descending (rows : List Row) :
    ((aggregate_fraud_data rows).1).Pairwise (fun p q => q.2 ≤ p.2) := by
  have h := @List.sorted_mergeSort (String × ℚ)
    (fun p q => decide (q.2 ≤ p.2))
    (fun a b c h1 h2 => by
      simp only [decide_eq_true_eq] at h1 h2 ⊢
      exact le_trans h2 h1)
    (fun a b => by simpa using le_total b.2 a.2)
    (((rows.map Row.agency).dedup).map
      (fun a => (a, sumAmt (rows.filter (fun r => r.agency == a)))))
  exact h.imp (fun hb => by simpa using hb)

end ConfirmedFraud
